import Mathlib

/-!
Shallow embedding of the karan9123/webCrawler repository, used to settle the
frozen claims about its specification.

The embedding covers:
* `WebCrawler.Mongo`   — src/database/mongo_link_manager.py (`MongoLinkManager`)
* `WebCrawler.Neo4j`   — src/neo4j_link_manager.py (`LinkManager`)
* `WebCrawler.Robots`  — the robots/politeness logic of src/scraper.py
  (`is_allowed`, `load_robot_policy`, `update_robot_file`,
  `add_unallowed_link`) which subsumes src/scraper/robots_handler.py
* `WebCrawler.Crawl`   — the orchestrator of src/scraper.py
  (`should_crawl`, `discover_links`, `crawl`) and the tenacity retry
  wrapper around `scrape_website`

Machine timestamps are modelled as natural numbers counting seconds
(`datetime.now()` becomes an explicit `now : Nat` argument); external
effects (aiohttp fetches, the filesystem robots cache, the persisted
denial-ledger file) are modelled as explicit oracles and state fields.
-/

namespace WebCrawler

/-- Replace the first element satisfying `p` by `f` applied to it
(no-op when nothing matches) — the behaviour of a Mongo `update_one`
without `upsert`. -/
def updateFirstP {α : Type} (p : α → Bool) (f : α → α) : List α → List α
  | [] => []
  | x :: xs => if p x then f x :: xs else x :: updateFirstP p f xs

/-- Delete the first element satisfying `p` (no-op when nothing matches) —
the behaviour of a Mongo `delete_one`. -/
def eraseFirstP {α : Type} (p : α → Bool) : List α → List α
  | [] => []
  | x :: xs => if p x then xs else x :: eraseFirstP p xs

/-- Association-list lookup (first binding wins). -/
def lookupAssoc {α : Type} (l : List (String × α)) (k : String) : Option α :=
  match l.find? (fun kv => kv.1 == k) with
  | some kv => some kv.2
  | none => none

/-- Association-list update: overwrite the first binding of `k`, or append a
new binding when `k` is absent. -/
def setAssoc {α : Type} (l : List (String × α)) (k : String) (v : α) :
    List (String × α) :=
  if l.any (fun kv => kv.1 == k) then
    updateFirstP (fun kv => kv.1 == k) (fun _ => (k, v)) l
  else l ++ [(k, v)]

/-- Python truthiness of an optional string (`if parent_url:` fires exactly
when the value is neither `None` nor the empty string). -/
def isTruthy : Option String → Bool
  | none => false
  | some s => s != ""

/-- The characters after the first `"://"`, or `none` when the string has
no `"://"` (character-level so that the kernel can evaluate it). -/
def afterSchemeSep : List Char → Option (List Char)
  | [] => none
  | ':' :: '/' :: '/' :: rest => some rest
  | _ :: rest => afterSchemeSep rest

/-- The characters before the first `"://"`, or `none` when absent. -/
def beforeSchemeSep : List Char → Option (List Char)
  | [] => none
  | ':' :: '/' :: '/' :: _ => some []
  | c :: rest => (beforeSchemeSep rest).map (fun l => c :: l)

/-- The characters before the first `'/'`. -/
def takeUntilSlash : List Char → List Char
  | [] => []
  | '/' :: _ => []
  | c :: rest => c :: takeUntilSlash rest

/-- The suffix starting at the first `'/'` (empty when there is none). -/
def fromSlash : List Char → List Char
  | [] => []
  | '/' :: rest => '/' :: rest
  | _ :: rest => fromSlash rest

/-- Is the first list a prefix of the second? -/
def isPrefixChars : List Char → List Char → Bool
  | [], _ => true
  | _, [] => false
  | a :: as, b :: bs => a == b && isPrefixChars as bs

/-- Model of `urlparse(url).netloc`: the authority component, i.e. what
stands between `"://"` and the next `"/"`; empty when the URL has no
`"://"`. -/
def netloc (url : String) : String :=
  match afterSchemeSep url.data with
  | some rest => String.mk (takeUntilSlash rest)
  | none => ""

/-- Model of `urlparse(url).scheme` for absolute URLs written with
`"://"`. -/
def schemeOf (url : String) : String :=
  match beforeSchemeSep url.data with
  | some l => String.mk l
  | none => ""

/-- The path component of an absolute URL (the `"/"`-prefixed suffix after
the authority, `"/"` when the URL ends at the authority), used when
matching robots rules. -/
def pathOf (url : String) : String :=
  match afterSchemeSep url.data with
  | some rest =>
    match fromSlash rest with
    | [] => "/"
    | l => String.mk l
  | none => url

/-- Occurrences of `u` in a list of strings. -/
def countU (l : List String) (u : String) : Nat :=
  (l.filter (fun x => x == u)).length

namespace Mongo

/-- One document of the `links` collection
(src/database/mongo_link_manager.py `add_link` builds exactly these
fields: `url`, `domain`, `parent`, `lastChecked`). -/
structure MNode where
  url : String
  domain : String
  parent : Option String
  lastChecked : Nat
deriving DecidableEq, Repr

/-- One document of the `linkChildren` collection. -/
structure MEdge where
  parentUrl : String
  childUrl : String
deriving DecidableEq, Repr

/-- The Mongo database state: the `links` and `linkChildren` collections.
`linkChildren` may hold duplicate documents (`insert_one` never
deduplicates). -/
structure MState where
  links : List MNode
  linkChildren : List MEdge
deriving DecidableEq, Repr

def emptyM : MState := ⟨[], []⟩

/-- Model of `update_one({'url': url}, {'$set': link_doc}, upsert=True)` where
`link_doc` sets every field: replace the first document with this `url`,
or insert the document when absent. -/
def updateOneUpsertLink (s : List MNode) (url : String) (doc : MNode) :
    List MNode :=
  if s.any (fun n => n.url == url) then
    updateFirstP (fun n => n.url == url) (fun _ => doc) s
  else s ++ [doc]

/-- Model of `MongoLinkManager.add_link(url, parent_url=None)`
(src/database/mongo_link_manager.py lines 30–61): upsert the link document
(overwriting `domain`, `parent`, `lastChecked`), then — when `parent_url`
is truthy — `insert_one` a new parent/child edge document. -/
def add_link (s : MState) (now : Nat) (url : String)
    (parent_url : Option String) : MState :=
  let doc : MNode :=
    { url := url, domain := netloc url, parent := parent_url,
      lastChecked := now }
  { links := updateOneUpsertLink s.links url doc,
    linkChildren :=
      (if isTruthy parent_url then
        s.linkChildren ++ [⟨parent_url.getD "", url⟩]
      else s.linkChildren) }

/-- Model of `get_children(url)`: `childUrl` of every edge document whose
`parentUrl` is `url`. -/
def get_children (s : MState) (url : String) : List String :=
  (s.linkChildren.filter (fun e => e.parentUrl == url)).map (fun e => e.childUrl)

/-- Model of `get_parent(url)`: the `parent` field of the link document, `None` when
the document is absent (Python returns `None` in both cases, so the two
layers of optionality are flattened exactly as the source does). -/
def get_parent (s : MState) (url : String) : Option String :=
  match s.links.find? (fun n => n.url == url) with
  | some n => n.parent
  | none => none

/-- Model of `MongoLinkManager.remove_link(url)`
(src/database/mongo_link_manager.py lines 63–88), statement by statement:
1. `delete_one` the link document;
2. `delete_many` every edge whose `childUrl` is `url`;
3. read `get_children(url)` and `get_parent(url)` from the resulting state
   (the source issues these queries only after the two deletes);
4. for each child: when the parent is truthy, `update_one` the first edge
   into that child to point at the parent, otherwise `delete_one` the first
   edge into that child. -/
def remove_link (s : MState) (url : String) : MState :=
  let s1 : MState := { s with links := eraseFirstP (fun n => n.url == url) s.links }
  let s2 : MState :=
    { s1 with linkChildren := s1.linkChildren.filter (fun e => e.childUrl != url) }
  let children := get_children s2 url
  let parent := get_parent s2 url
  children.foldl
    (fun st child =>
      if isTruthy parent then
        { st with linkChildren :=
            (updateFirstP (fun e => e.childUrl == child)
              (fun e => { e with parentUrl := parent.getD "" }) st.linkChildren) }
      else
        { st with linkChildren :=
            (eraseFirstP (fun e => e.childUrl == child) st.linkChildren) })
    s2

/-- Iterated `add_link` on one fixed `url`, one call per element of the
argument list (each element is that call's `parent_url`). -/
def runAddLinks (now : Nat) (url : String) (s : MState) :
    List (Option String) → MState
  | [] => s
  | p :: ps => runAddLinks now url (add_link s now url p) ps

end Mongo

/-- What `get_last_crawl_info` returns for a node that exists: the
`lastChecked` and `lastModified` properties (either may be a Cypher NULL —
a node merged only as a parent stub has both NULL). -/
structure CrawlInfo where
  last_checked : Option Nat
  last_modified : Option Nat
deriving DecidableEq, Repr

namespace Neo4j

/-- A `(:Link)` node of the Neo4j graph with the properties the source
sets: `url`, `domain`, `lastChecked`, `contentHash`, `lastModified`
(each `Option` because a `MERGE`d parent stub has no properties besides
`url`, and `SET` can store NULL). -/
structure LinkNode where
  url : String
  domain : Option String
  lastChecked : Option Nat
  contentHash : Option String
  lastModified : Option Nat
deriving DecidableEq, Repr

/-- The Neo4j database state: the `Link` nodes and the `LINKS_TO`
relationships (as ordered `(parent, child)` url pairs; `MERGE` keeps them
duplicate-free). -/
structure NState where
  nodes : List LinkNode
  edges : List (String × String)
deriving DecidableEq, Repr

def emptyN : NState := ⟨[], []⟩

/-- Model of `MERGE (l:Link {url: $url})`: create a property-less node when no node
with this `url` exists. -/
def mergeNode (ns : List LinkNode) (url : String) : List LinkNode :=
  if ns.any (fun n => n.url == url) then ns
  else ns ++ [{ url := url, domain := none, lastChecked := none,
                contentHash := none, lastModified := none }]

/-- The `SET` clause of `_create_or_update_link`: overwrite `domain`,
`lastChecked` (to now), `contentHash` and `lastModified` on the node with
this `url`. -/
def setNodeProps (ns : List LinkNode) (url : String) (domain : String)
    (now : Nat) (content_hash : Option String) (last_modified : Option Nat) :
    List LinkNode :=
  ns.map (fun n =>
    if n.url == url then
      { n with domain := some domain, lastChecked := some now,
               contentHash := content_hash, lastModified := last_modified }
    else n)

/-- Model of `MERGE (p)-[:LINKS_TO]->(c)`: add the relationship only when that
ordered pair is not already present. -/
def mergeEdge (es : List (String × String)) (e : String × String) :
    List (String × String) :=
  if es.any (fun x => x == e) then es else es ++ [e]

/-- Model of `LinkManager._create_or_update_link` (src/neo4j_link_manager.py lines
40–61): merge-and-set the node; then, when `parent_url` is truthy, merge
the parent stub node and merge the `LINKS_TO` edge. -/
def create_or_update_link (s : NState) (now : Nat) (url domain : String)
    (parent_url : Option String) (content_hash : Option String)
    (last_modified : Option Nat) : NState :=
  let nodes1 := setNodeProps (mergeNode s.nodes url) url domain now
    content_hash last_modified
  match parent_url with
  | some p =>
    if p != "" then
      { nodes := mergeNode nodes1 p, edges := mergeEdge s.edges (p, url) }
    else { s with nodes := nodes1 }
  | none => { s with nodes := nodes1 }

/-- Model of `LinkManager.add_or_update_link` (src/neo4j_link_manager.py lines
27–38): computes `domain = urlparse(url).netloc` and runs the write
transaction. -/
def add_or_update_link (s : NState) (now : Nat) (url : String)
    (parent_url : Option String) (content_hash : Option String)
    (last_modified : Option Nat) : NState :=
  create_or_update_link s now url (netloc url) parent_url content_hash
    last_modified

/-- Model of `LinkManager.get_last_crawl_info`: the `lastChecked`/`lastModified`
record of the matched node, or `none` when no node has this `url`. -/
def get_last_crawl_info (s : NState) (url : String) : Option CrawlInfo :=
  match s.nodes.find? (fun n => n.url == url) with
  | some n => some ⟨n.lastChecked, n.lastModified⟩
  | none => none

/-- Model of `LinkManager.content_exists`: is there a node whose `contentHash`
equals the given hash? -/
def content_exists (s : NState) (h : String) : Bool :=
  s.nodes.any (fun n => n.contentHash == some h)

/-- Model of `LinkManager._remove_link` (src/neo4j_link_manager.py lines 136–147).
The Cypher builds one row per (child, parent) combination — the two
`OPTIONAL MATCH`es form the cartesian product of `l`'s children and
parents — merges the edge `p → c` for every such pair, and finally
`DETACH DELETE`s `l` (dropping the node and every edge incident to it).
No-op when no node has this `url` (the initial `MATCH` fails). -/
def remove_link (s : NState) (url : String) : NState :=
  if s.nodes.any (fun n => n.url == url) then
    { nodes := s.nodes.filter (fun n => n.url != url),
      edges :=
        ((((s.edges.filter (fun e => e.2 == url)).map Prod.fst).foldl
            (fun es p =>
              ((s.edges.filter (fun e => e.1 == url)).map Prod.snd).foldl
                (fun es2 c => mergeEdge es2 (p, c)) es)
            s.edges).filter (fun e => e.1 != url && e.2 != url)) }
  else s

/-- One `add_or_update_link` call, as data. -/
structure UpsertCall where
  url : String
  parent_url : Option String
  content_hash : Option String
  last_modified : Option Nat
deriving DecidableEq, Repr

/-- Run a sequence of `add_or_update_link` calls left to right. -/
def runUpserts (now : Nat) (s : NState) : List UpsertCall → NState
  | [] => s
  | c :: cs => runUpserts now (add_or_update_link s now c.url c.parent_url
      c.content_hash c.last_modified) cs

/-- Number of `LINKS_TO` relationships for one ordered `(parent, child)`
pair. -/
def edgeCount (es : List (String × String)) (e : String × String) : Nat :=
  (es.filter (fun x => x == e)).length

end Neo4j

namespace Robots

/-- One allow/deny rule of a parsed robots.txt, as the stdlib
`RobotFileParser` represents a `ruleline`: a path prefix and whether it is
an `Allow` or a `Disallow` line. The stdlib parser is outside this
repository; it is modelled here restricted to a single user-agent group
(the crawler always queries with its own configured agent string). -/
structure RuleLine where
  allow : Bool
  path : String
deriving DecidableEq, Repr

/-- Parse one robots.txt line into a rule (lines that are neither
`Allow:` nor `Disallow:` contribute no rule). -/
def parseRuleLine (line : String) : Option RuleLine :=
  if isPrefixChars "Allow: ".data line.data then
    some ⟨true, String.mk (line.data.drop 7)⟩
  else if isPrefixChars "Disallow: ".data line.data then
    some ⟨false, String.mk (line.data.drop 10)⟩
  else none

/-- Model of `RobotFileParser.parse(lines)` (modelled): collect the rules. An empty
file yields no rules. -/
def parseRobots (lines : List String) : List RuleLine :=
  lines.filterMap parseRuleLine

/-- Model of `RobotFileParser.can_fetch(agent, url)` (modelled): the first rule
whose path is a prefix of the URL's path decides; with no applicable rule
(in particular for the empty policy) the fetch is allowed. -/
def can_fetch (rules : List RuleLine) (_agent url : String) : Bool :=
  match rules.find? (fun r => isPrefixChars r.path.data (pathOf url).data) with
  | some r => r.allow
  | none => true

/-- The scraper's politeness state (src/scraper.py `Scraper.__init__`):
the on-disk robots cache (`robot_cache/{domain}_robots.txt`, keyed here by
domain, each file carrying its lines and its mtime), the in-memory
`robot_parsers` dict, the in-memory `unallowed_links` ledger, and the
persisted ledger file (`none` before any save). -/
structure ScraperState where
  fs : List (String × (List String × Nat))
  robot_parsers : List (String × List RuleLine)
  unallowed_links : List String
  savedLedger : Option (List String)
deriving DecidableEq, Repr

/-- TTL of a cached robots file: `timedelta(days=7)` in seconds. -/
def ttlSeconds : Nat := 7 * 24 * 60 * 60

/-- Model of `Scraper.is_file_outdated` (src/scraper.py lines 125–132): is the file
older than 7 days? -/
def is_file_outdated (now mtime : Nat) : Bool :=
  decide (now - mtime > ttlSeconds)

/-- Model of `Scraper.add_unallowed_link` (src/scraper.py lines 164–172): append
the URL to the ledger and rewrite the persisted file, but only when the
URL is not already recorded. -/
def add_unallowed_link (st : ScraperState) (url : String) : ScraperState :=
  if st.unallowed_links.any (fun x => x == url) then st
  else
    { st with unallowed_links := st.unallowed_links ++ [url],
              savedLedger := some (st.unallowed_links ++ [url]) }

/-- How the aiohttp GET of `https://{domain}/robots.txt` inside
`update_robot_file` can end: a response body (lines), an
`aiohttp.ClientError` (connection errors, and the `raise_for_status` of a
non-2xx response — the only exception the source catches), or an
exception that is **not** a `ClientError` (the `asyncio.TimeoutError` of
the 10-second timeout), which escapes the `try`/`except`. -/
inductive RFetch
  | ok (lines : List String)
  | clientError
  | timeoutError
deriving DecidableEq, Repr

/-- The lines `update_robot_file` would write for a fetch outcome: the
body on success, an empty file for the caught `ClientError`, nothing (the
exception escapes) for a timeout. -/
def fetchedLines : RFetch → Option (List String)
  | .ok lines => some lines
  | .clientError => some []
  | .timeoutError => none

/-- Model of `Scraper.update_robot_file` (src/scraper.py lines 134–152): fetch
`https://{domain}/robots.txt` and write it to the cache file with mtime
`now`; on `aiohttp.ClientError` log and write an empty file instead; any
other exception (the asyncio timeout) escapes the `except` clause and
propagates to the caller — modelled as the result `none`, with no file
written. -/
def update_robot_file (st : ScraperState)
    (fetch : String → RFetch) (now : Nat) (domain : String) :
    Option ScraperState :=
  match fetch domain with
  | .ok content => some { st with fs := setAssoc st.fs domain (content, now) }
  | .clientError => some { st with fs := setAssoc st.fs domain ([], now) }
  | .timeoutError => none

/-- The freshness gate inside `load_robot_policy`: refetch the robots file
when it is absent or outdated, otherwise keep the cached file. A `none`
result propagates the refetch's escaped exception. -/
def refresh_file_if_stale (st : ScraperState)
    (fetch : String → RFetch) (now : Nat) (domain : String) :
    Option ScraperState :=
  match lookupAssoc st.fs domain with
  | none => update_robot_file st fetch now domain
  | some fm =>
    if is_file_outdated now fm.2 then update_robot_file st fetch now domain
    else some st

/-- Model of `Scraper.read_robot_file`: the cached file's lines (the caller always
reads a path that exists; `[]` for the unreachable missing case). -/
def read_robot_file (st : ScraperState) (domain : String) : List String :=
  match lookupAssoc st.fs domain with
  | some fm => fm.1
  | none => []

/-- The tail of `load_robot_policy`: parse the cached file and store the
parser in the in-memory `robot_parsers` dict. -/
def install_policy (st : ScraperState) (domain : String) : ScraperState :=
  { st with robot_parsers :=
      (setAssoc st.robot_parsers domain (parseRobots (read_robot_file st domain))) }

/-- Model of `Scraper.load_robot_policy` (src/scraper.py lines 110–123): refresh
the cache file when absent or outdated, then parse it into
`robot_parsers[domain]`; an exception escaping the refetch propagates. -/
def load_robot_policy (st : ScraperState)
    (fetch : String → RFetch) (now : Nat) (domain : String) :
    Option ScraperState :=
  (refresh_file_if_stale st fetch now domain).map
    (fun st1 => install_policy st1 domain)

/-- The guard at the top of `is_allowed`: load the parser only when the
domain has no in-memory parser yet. -/
def ensure_policy (st : ScraperState)
    (fetch : String → RFetch) (now : Nat) (domain : String) :
    Option ScraperState :=
  match lookupAssoc st.robot_parsers domain with
  | some _ => some st
  | none => load_robot_policy st fetch now domain

/-- Model of `self.robot_parsers[domain]` after `ensure_policy` (the `[]` branch is
unreachable: loading always installs a parser). -/
def rulesFor (st : ScraperState) (domain : String) : List RuleLine :=
  match lookupAssoc st.robot_parsers domain with
  | some rs => rs
  | none => []

/-- Model of `Scraper.is_allowed` (src/scraper.py lines 91–108): resolve the
domain, load the parser if this process has none for the domain yet,
evaluate `can_fetch`, and on denial record the URL in the unallowed-links
ledger. Returns the verdict and the updated state, or `none` when an
exception escaped the robots refetch and propagates out of `is_allowed`.
(src/scraper/robots_handler.py `is_allowed` is the same logic without the
ledger step.) -/
def is_allowed (st : ScraperState) (fetch : String → RFetch)
    (now : Nat) (agent url : String) : Option (Bool × ScraperState) :=
  match ensure_policy st fetch now (netloc url) with
  | none => none
  | some st1 =>
    if can_fetch (rulesFor st1 (netloc url)) agent url then
      some (true, st1)
    else
      some (false, add_unallowed_link st1 url)

/-- Runs `n` successive `is_allowed` calls on the same URL (each call sees the
state the previous one produced; an escaped exception aborts the whole
sequence). -/
def iterIsAllowed (fetch : String → RFetch) (now : Nat)
    (agent url : String) : Nat → ScraperState → Option ScraperState
  | 0, st => some st
  | n + 1, st =>
    match is_allowed st fetch now agent url with
    | none => none
    | some r => iterIsAllowed fetch now agent url n r.2

end Robots

namespace Crawl

/-- The staleness window of `should_crawl`: `timedelta(days=7)` in
seconds. -/
def staleness_window : Nat := 7 * 24 * 60 * 60

/-- Model of `Scraper.should_crawl` (src/scraper.py lines 244–279, identical in
src/scraper/scraper.py lines 79–96): crawl when the store has no record;
crawl when `last_modified` is NULL; otherwise crawl exactly when
`now - last_checked` exceeds 7 days. (A record with `last_modified` set
always carries `last_checked` — the `SET` clause writes both — so the
remaining combination never occurs; Python would raise on it and the model
maps it to `false`.) -/
def should_crawl (info : Option CrawlInfo) (now : Nat) : Bool :=
  match info with
  | none => true
  | some i =>
    match i.last_modified with
    | none => true
    | some _ =>
      match i.last_checked with
      | none => false
      | some lc => decide (now - lc > staleness_window)

/-- A fetched, rendered page: the digest of its content
(`get_content_hash(str(soup))`) and its anchor/resource references.
`urljoin` resolution is stdlib and outside the repository, so anchors and
resources are carried already resolved to absolute URLs. -/
structure Page where
  hashv : String
  anchors : List String
  resources : List String
deriving DecidableEq, Repr

/-- Insertion into a Python `set`, modelled as a duplicate-free list. -/
def insertSet (l : List String) (a : String) : List String :=
  if l.any (fun x => x == a) then l else l ++ [a]

/-- Model of `Scraper.discover_links` (src/scraper.py lines 203–233): classify each
anchor — same authority as the page and robots-allowed → internal;
different authority with an http/https scheme → external — and collect
every resource reference. The per-anchor `is_allowed` calls thread the
politeness state; an exception escaping one of them propagates out of
`discover_links` (result `none`). Returns
`some ((internal, external, resources), robots')` otherwise. -/
def discover_links (fetchR : String → Robots.RFetch) (now : Nat)
    (agent : String) (robots : Robots.ScraperState) (url : String)
    (page : Page) :
    Option ((List String × List String × List String) × Robots.ScraperState) :=
  let base_domain := netloc url
  match page.anchors.foldl
    (fun (acc : Option (List String × List String × Robots.ScraperState))
        full_url =>
      match acc with
      | none => none
      | some (int_, ext, r) =>
        if netloc full_url == base_domain then
          match Robots.is_allowed r fetchR now agent full_url with
          | none => none
          | some (allowed, r') =>
            if allowed then some (insertSet int_ full_url, ext, r')
            else some (int_, ext, r')
        else if schemeOf full_url == "http" || schemeOf full_url == "https" then
          some (int_, insertSet ext full_url, r)
        else some (int_, ext, r))
    (some ([], [], robots)) with
  | none => none
  | some (int_, ext, r1) =>
    some ((int_, ext, page.resources.foldl insertSet []), r1)

/-- The state a finished (or suspended) crawl loop leaves behind: the
`visited` set (the Python function's return value), the link store, and
the politeness state. -/
structure CrawlResult where
  visited : List String
  store : Neo4j.NState
  robots : Robots.ScraperState
deriving DecidableEq, Repr

/-- Model of `Scraper.crawl` (src/scraper.py lines 281–317): the frontier loop.
`fp` is the external fetch capability (`scrape_website`, returning `none`
on failure), `fr` the robots fetch capability. Per dequeued URL: skip if
already visited, denied, or fresh; otherwise fetch; on success hash the
content; when the hash already exists in the store do nothing further;
when novel, upsert the node with the hash, discover links, mark the URL
visited, upsert every internal link (with no parent argument) and enqueue
the unvisited ones. An exception escaping a robots refetch propagates out
of `crawl` (result `none`: the function never returns; effects already
applied to the external store are not tracked for such aborted runs — for
this reason the url upsert, which Python performs just before link
discovery, sits inside the successful-discovery branch here, an
equivalent placement for every run that returns). The
`while` loop is driven by explicit fuel (the Python loop has no such
parameter; every theorem quantifies over it). -/
def crawlLoop (fp : String → Option Page)
    (fr : String → Robots.RFetch) (now : Nat) (agent : String)
    (max_pages : Nat) :
    Nat → List String → List String → Neo4j.NState → Robots.ScraperState →
    Option CrawlResult
  | 0, _, visited, store, robots => some ⟨visited, store, robots⟩
  | fuel + 1, queue, visited, store, robots =>
    match queue with
    | [] => some ⟨visited, store, robots⟩
    | url :: rest =>
      if visited.length < max_pages then
        if visited.any (fun x => x == url) then
          crawlLoop fp fr now agent max_pages fuel rest visited store robots
        else
          match Robots.is_allowed robots fr now agent url with
          | none => none
          | some (allowed, r1) =>
            if allowed then
              if should_crawl (Neo4j.get_last_crawl_info store url) now then
                match fp url with
                | none =>
                  crawlLoop fp fr now agent max_pages fuel rest visited store r1
                | some page =>
                  if Neo4j.content_exists store page.hashv then
                    crawlLoop fp fr now agent max_pages fuel rest visited store
                      r1
                  else
                    match discover_links fr now agent r1 url page with
                    | none => none
                    | some (lists, r2) =>
                      let store1 := Neo4j.add_or_update_link store now url none
                        (some page.hashv) (some now)
                      let visited1 := visited ++ [url]
                      let sq := lists.1.foldl
                        (fun (acc : Neo4j.NState × List String) link =>
                          (Neo4j.add_or_update_link acc.1 now link none none
                            none,
                           if visited1.any (fun x => x == link) then acc.2
                           else acc.2 ++ [link]))
                        (store1, rest)
                      crawlLoop fp fr now agent max_pages fuel sq.2 visited1
                        sq.1 r2
              else
                crawlLoop fp fr now agent max_pages fuel rest visited store r1
            else
              crawlLoop fp fr now agent max_pages fuel rest visited store r1
      else some ⟨visited, store, robots⟩

/-- What one fetch attempt inside `scrape_website` does
(src/scraper.py lines 71–89): succeed, raise `aiohttp.ClientError`
(connection errors and the `raise_for_status` of a 4xx/5xx response), or
raise a non-`ClientError` exception (the `asyncio` timeout). -/
inductive FetchOutcome
  | ok (page : Page)
  | clientError
  | timeoutError
deriving DecidableEq, Repr

/-- How one execution of the decorated function's body ends: a normal
return (the `try` succeeded, or the `except aiohttp.ClientError` clause
caught the exception and returned `None`), or an escaping exception. -/
inductive BodyResult
  | ret (r : Option Page)
  | exc
deriving DecidableEq, Repr

/-- The body of `scrape_website` on one attempt's outcome: success returns
the page; `ClientError` is caught, logged and turned into a `None` return;
any other exception escapes the `try`. -/
def scrape_body : FetchOutcome → BodyResult
  | .ok page => .ret (some page)
  | .clientError => .ret none
  | .timeoutError => .exc

/-- How a `scrape_website` call ends under the tenacity decorator: a
normal return, or a `RetryError` after the attempt budget is exhausted. -/
inductive ScrapeResult
  | returned (v : Option Page)
  | retryError
deriving DecidableEq, Repr

/-- The tenacity retry loop (`stop=stop_after_attempt(3)`): run the body;
a normal return ends the call, an escaping exception consumes one attempt
and retries until the budget is spent. `outcomes i` is the fetch outcome
of attempt `i`; the second component counts the attempts used. -/
def tenacityLoop (outcomes : Nat → FetchOutcome) (i : Nat) :
    Nat → ScrapeResult × Nat
  | 0 => (.retryError, i)
  | remaining + 1 =>
    match scrape_body (outcomes i) with
    | .ret r => (.returned r, i + 1)
    | .exc => tenacityLoop outcomes (i + 1) remaining

/-- Model of `scrape_website` as decorated in the source:
`@retry(stop=stop_after_attempt(3), wait=wait_exponential(...))` around a
body that catches `aiohttp.ClientError` itself. -/
def scrape_website_run (outcomes : Nat → FetchOutcome) : ScrapeResult × Nat :=
  tenacityLoop outcomes 0 3

end Crawl

namespace Fixtures

/-- Mongo store holding the graph P → N → C, built by three `add_link`
calls (P; N with parent P; C with parent N). -/
def mongoPNC : Mongo.MState :=
  Mongo.add_link
    (Mongo.add_link (Mongo.add_link Mongo.emptyM 0 "http://h/P" none)
      1 "http://h/N" (some "http://h/P"))
    2 "http://h/C" (some "http://h/N")

/-- A property-less Neo4j node (as a bare `MERGE` leaves it). -/
def stubNode (u : String) : Neo4j.LinkNode :=
  { url := u, domain := none, lastChecked := none, contentHash := none,
    lastModified := none }

/-- Neo4j store holding the graph P → N → C. -/
def neoPNC : Neo4j.NState :=
  ⟨[stubNode "http://h/P", stubNode "http://h/N", stubNode "http://h/C"],
   [("http://h/P", "http://h/N"), ("http://h/N", "http://h/C")]⟩

/-- A robots policy denying every path. -/
def denyAll : List Robots.RuleLine := [⟨false, "/"⟩]

/-- Politeness state for claim C4: domain `h` has a robots cache file
written at time 0 (so it is stale once `now > ttlSeconds`) and an
in-memory parser, created from that file, that denies everything. -/
def st4 : Robots.ScraperState :=
  ⟨[("h", (["Disallow: /"], 0))], [("h", denyAll)], [], none⟩

/-- A robots fetch that now succeeds with an empty (allow-all) file. -/
def fetchEmptyOk : String → Robots.RFetch := fun _ => .ok []

/-- A robots fetch that always fails with an `aiohttp.ClientError`
(network error / non-2xx status — the exception the source catches). -/
def fetchFail : String → Robots.RFetch := fun _ => .clientError

/-- A robots fetch that always times out (`asyncio.TimeoutError` — not an
`aiohttp.ClientError`, so the source's `except` clause does not catch
it). -/
def fetchTimeout : String → Robots.RFetch := fun _ => .timeoutError

/-- Politeness state for claim C9: domain `h` has a cached denying
parser and an empty ledger. -/
def st9 : Robots.ScraperState :=
  ⟨[("h", (["Disallow: /"], 0))], [("h", denyAll)], [], none⟩

/-- Claim C3: node for the dequeued URL, last checked at time 0, never
content-hashed. -/
def node3a : Neo4j.LinkNode :=
  ⟨"http://h/a", some "h", some 0, none, none⟩

/-- Claim C3: an older node already holding content hash `"HH"`. -/
def node3old : Neo4j.LinkNode :=
  ⟨"http://h/old", some "h", some 0, some "HH", some 0⟩

/-- Claim C3: store where hash `"HH"` already exists. -/
def store3 : Neo4j.NState := ⟨[node3a, node3old], []⟩

/-- Claim C3: politeness state whose cached parser for `h` allows all. -/
def robots3 : Robots.ScraperState := ⟨[("h", ([], 5))], [("h", [])], [], none⟩

/-- Claim C3: fetching the dequeued URL succeeds and its content hashes to
the already-stored `"HH"`. -/
def fp3 : String → Option Crawl.Page :=
  fun u => if u == "http://h/a" then some ⟨"HH", [], []⟩ else none

/-- Claim C3/C8: a robots fetch returning an empty allow-all file. -/
def fr3 : String → Robots.RFetch := fun _ => .ok []

/-- Claim C8: node already holding content hash `"KK"`. -/
def node8old : Neo4j.LinkNode :=
  ⟨"http://k/old", some "k", some 0, some "KK", some 0⟩

/-- Claim C8: store where hash `"KK"` already exists. -/
def store8 : Neo4j.NState := ⟨[node8old], []⟩

/-- Claim C8: politeness state whose cached parser for `k` allows all. -/
def robots8 : Robots.ScraperState := ⟨[("k", ([], 5))], [("k", [])], [], none⟩

/-- Claim C8: fetching the start URL succeeds (the fetch is attempted and
returns a page) but the content hashes to the already-stored `"KK"`. -/
def fp8 : String → Option Crawl.Page :=
  fun u => if u == "http://k/a" then some ⟨"KK", [], []⟩ else none

/-- Claim C8 witness: every fetch succeeds with novel content `"W"`. -/
def fp8w : String → Option Crawl.Page := fun _ => some ⟨"W", [], []⟩

/-- Claim C8 witness: politeness state whose cached parser for `m` allows
all. -/
def robots8w : Robots.ScraperState := ⟨[("m", ([], 5))], [("m", [])], [], none⟩

/-- Claim C8 witness: the result the two-fuel crawl of `http://m/a`
computes — the URL visited, its node upserted with hash `"W"`. -/
def res8w : Crawl.CrawlResult :=
  ⟨["http://m/a"],
   ⟨[⟨"http://m/a", some "m", some 1000, some "W", some 1000⟩], []⟩,
   robots8w⟩

/-- Claim C2 witness: one upsert of `x` with parent `http://a.com/`. -/
def call2 : Neo4j.UpsertCall :=
  ⟨"http://a.com/x", some "http://a.com/", none, none⟩

end Fixtures

/-! ## Generic lemmas about the list operations used by the stores -/

theorem find?_updateFirstP {α : Type} (p : α → Bool) (d : α) (hd : p d = true) :
    ∀ l : List α, l.any p = true →
      (updateFirstP p (fun _ => d) l).find? p = some d := by
  intro l
  induction l with
  | nil => intro h; simp at h
  | cons x xs ih =>
    intro h
    rw [List.any_cons] at h
    cases hx : p x with
    | true => simp [updateFirstP, hx, hd]
    | false =>
      have hxs : xs.any p = true := by simpa [hx] using h
      simp [updateFirstP, hx, ih hxs]

theorem find?_eq_none_of_any_false {α : Type} (p : α → Bool) (l : List α)
    (h : l.any p = false) : l.find? p = none := by
  rw [List.find?_eq_none]
  intro x hx hpx
  rw [List.any_eq_false] at h
  exact h x hx hpx

theorem find?_anyUpsert {α : Type} (p : α → Bool) (d : α) (hd : p d = true)
    (l : List α) :
    (if l.any p then updateFirstP p (fun _ => d) l else l ++ [d]).find? p
      = some d := by
  cases h : l.any p with
  | true => simpa [h] using find?_updateFirstP p d hd l h
  | false => simp [h, List.find?_append, find?_eq_none_of_any_false p l h, hd]

theorem lookupAssoc_setAssoc_self {α : Type} (l : List (String × α))
    (k : String) (v : α) : lookupAssoc (setAssoc l k v) k = some v := by
  unfold lookupAssoc setAssoc
  rw [find?_anyUpsert (fun kv => kv.1 == k) (k, v) (by simp) l]

/-! ## Lemmas about the Mongo link manager -/

theorem Mongo.get_parent_add_link (s : Mongo.MState) (now : Nat)
    (url : String) (p : Option String) :
    Mongo.get_parent (Mongo.add_link s now url p) url = p := by
  unfold Mongo.get_parent Mongo.add_link Mongo.updateOneUpsertLink
  rw [find?_anyUpsert (fun n => n.url == url) _ (by simp) s.links]

theorem Mongo.runAddLinks_append (now : Nat) (url : String)
    (c : Option String) :
    ∀ (ps : List (Option String)) (s : Mongo.MState),
      Mongo.runAddLinks now url s (ps ++ [c])
        = Mongo.add_link (Mongo.runAddLinks now url s ps) now url c := by
  intro ps
  induction ps with
  | nil => intro s; rfl
  | cons p ps ih => intro s; simpa [Mongo.runAddLinks] using ih _

/-- Claim C10 (confirmed): every Mongo `add_link(url, parent_url)` call
overwrites the node's single stored `parent` field with this call's
`parent_url` argument — `None` included — so after any non-empty sequence
of `add_link` calls for the same `url`, `get_parent(url)` returns exactly
the `parent_url` of the most recent call; a later parentless call erases
any previously recorded parent. -/
theorem claimC10_last_parent_wins (s : Mongo.MState) (now : Nat)
    (url : String) (ps : List (Option String)) (c : Option String) :
    Mongo.get_parent (Mongo.runAddLinks now url s (ps ++ [c])) url = c := by
  rw [Mongo.runAddLinks_append, Mongo.get_parent_add_link]

/-- Claim C1 (code bug): on the Mongo store holding P → N → C,
`remove_link(N)` leaves **no** edge P → C — in fact it leaves no edge at
all — because the source deletes N's document before calling
`get_parent(N)`, so the reparent branch can never fire and the loop
instead deletes each child's edge. The claim's invariant itself is what
the Neo4j `_remove_link` implements: on the same graph it produces the
edge P → C and removes N. -/
theorem claimC1_remove_reparenting : (Mongo.remove_link Fixtures.mongoPNC "http://h/N").linkChildren = []
    ∧ (Mongo.remove_link Fixtures.mongoPNC "http://h/N").links.map
        Mongo.MNode.url = ["http://h/P", "http://h/C"]
    ∧ (Neo4j.remove_link Fixtures.neoPNC "http://h/N").edges
        = [("http://h/P", "http://h/C")]
    ∧ (Neo4j.remove_link Fixtures.neoPNC "http://h/N").nodes.map
        Neo4j.LinkNode.url = ["http://h/P", "http://h/C"] := by
  decide

/-- Claim C2, counterexample: two Mongo `add_link` calls with the same
ordered pair (parent `http://a.com/`, url `http://a.com/x`) leave two
identical edge documents in `linkChildren`, not one — `insert_one` never
deduplicates. -/
theorem claimC2_mongo_duplicate_edges : (Mongo.add_link
          (Mongo.add_link Mongo.emptyM 0 "http://a.com/x" (some "http://a.com/"))
          1 "http://a.com/x" (some "http://a.com/")).linkChildren
        = [⟨"http://a.com/", "http://a.com/x"⟩,
           ⟨"http://a.com/", "http://a.com/x"⟩] := by
  decide

/-- Claim C6 (confirmed): `should_crawl` returns true when the store has
no record; returns true when the record's `last_modified` is NULL; and for
a record with both fields set returns true exactly when
`now - last_checked` exceeds the 7-day staleness window. -/
theorem claimC6_should_crawl_policy : (∀ now : Nat, Crawl.should_crawl none now = true)
    ∧ (∀ (now : Nat) (lc : Option Nat),
        Crawl.should_crawl (some ⟨lc, none⟩) now = true)
    ∧ (∀ now lc lm : Nat,
        Crawl.should_crawl (some ⟨some lc, some lm⟩) now
          = decide (now - lc > Crawl.staleness_window)) :=
  ⟨fun _ => rfl, fun _ _ => rfl, fun _ _ _ => rfl⟩

/-- Claim C7 (code bug), evaluated at the failing input: when every fetch
attempt fails with `aiohttp.ClientError` (connection reset, or the
`raise_for_status` of a 5xx response), `scrape_website` returns `None`
after exactly **one** attempt — the `except` clause inside the body
swallows the exception, so the tenacity `@retry(stop_after_attempt(3))`
decorator never retries — and only a non-`ClientError` exception (the
asyncio timeout) is retried to the 3-attempt budget, after which the
decorator raises `RetryError` out of the crawl loop. -/
theorem claimC7_transient_failure_attempts : Crawl.scrape_website_run (fun _ => Crawl.FetchOutcome.clientError)
        = (Crawl.ScrapeResult.returned none, 1)
    ∧ Crawl.scrape_website_run (fun _ => Crawl.FetchOutcome.timeoutError)
        = (Crawl.ScrapeResult.retryError, 3) :=
  ⟨rfl, rfl⟩

/-! ## Lemmas about the Neo4j `LINKS_TO` edge set -/

theorem edgeCount_append (es fs : List (String × String))
    (e : String × String) :
    Neo4j.edgeCount (es ++ fs) e = Neo4j.edgeCount es e + Neo4j.edgeCount fs e := by
  simp [Neo4j.edgeCount, List.filter_append]

theorem edgeCount_eq_zero_of_any_false (es : List (String × String))
    (e : String × String) (h : es.any (fun x => x == e) = false) :
    Neo4j.edgeCount es e = 0 := by
  simp only [Neo4j.edgeCount, List.length_eq_zero, List.filter_eq_nil_iff]
  rw [List.any_eq_false] at h
  exact h

theorem edgeCount_pos_of_any_true (es : List (String × String))
    (e : String × String) (h : es.any (fun x => x == e) = true) :
    1 ≤ Neo4j.edgeCount es e := by
  obtain ⟨x, hx, hpx⟩ := List.any_eq_true.mp h
  have hm : x ∈ es.filter (fun x => x == e) := List.mem_filter.mpr ⟨hx, hpx⟩
  have := List.length_pos.mpr (List.ne_nil_of_mem hm)
  simpa [Neo4j.edgeCount] using this

theorem edgeCount_singleton (f e : String × String) :
    Neo4j.edgeCount [f] e = if f = e then 1 else 0 := by
  by_cases hfe : f = e <;> simp [Neo4j.edgeCount, hfe]

theorem mergeEdge_count_le (es : List (String × String))
    (e f : String × String) (h : Neo4j.edgeCount es e ≤ 1) :
    Neo4j.edgeCount (Neo4j.mergeEdge es f) e ≤ 1 := by
  unfold Neo4j.mergeEdge
  cases hf : es.any (fun x => x == f) with
  | true => simpa [hf] using h
  | false =>
    rw [if_neg (by simp [hf]), edgeCount_append, edgeCount_singleton]
    by_cases hfe : f = e
    · subst hfe
      rw [edgeCount_eq_zero_of_any_false es f hf]
      simp
    · simpa [hfe] using h

theorem mergeEdge_count_ge_one (es : List (String × String))
    (e : String × String) : 1 ≤ Neo4j.edgeCount (Neo4j.mergeEdge es e) e := by
  unfold Neo4j.mergeEdge
  cases he : es.any (fun x => x == e) with
  | true => simpa [he] using edgeCount_pos_of_any_true es e he
  | false => simp [he, edgeCount_append, edgeCount_singleton]

theorem mergeEdge_count_mono (es : List (String × String))
    (e f : String × String) :
    Neo4j.edgeCount es e ≤ Neo4j.edgeCount (Neo4j.mergeEdge es f) e := by
  unfold Neo4j.mergeEdge
  cases hf : es.any (fun x => x == f) with
  | true => simp [hf]
  | false =>
    rw [if_neg (by simp [hf]), edgeCount_append]
    exact Nat.le_add_right _ _

/-- The effect of one `create_or_update_link` on the edge set: exactly one
`MERGE` of `(parent_url, url)` when `parent_url` is truthy, nothing
otherwise. -/
theorem create_or_update_link_edges (s : Neo4j.NState) (now : Nat)
    (url domain : String) (pu : Option String) (ch : Option String)
    (lm : Option Nat) :
    (Neo4j.create_or_update_link s now url domain pu ch lm).edges
      = match pu with
        | some p =>
          if p != "" then Neo4j.mergeEdge s.edges (p, url) else s.edges
        | none => s.edges := by
  unfold Neo4j.create_or_update_link
  cases pu with
  | none => rfl
  | some p => cases hp : p != "" <;> simp [hp]

theorem runUpserts_count_le (now : Nat) (e : String × String) :
    ∀ (calls : List Neo4j.UpsertCall) (s : Neo4j.NState),
      Neo4j.edgeCount s.edges e ≤ 1 →
      Neo4j.edgeCount (Neo4j.runUpserts now s calls).edges e ≤ 1 := by
  intro calls
  induction calls with
  | nil => intro s h; exact h
  | cons c cs ih =>
    intro s h
    rw [Neo4j.runUpserts]
    apply ih
    rw [Neo4j.add_or_update_link, create_or_update_link_edges]
    cases hcp : c.parent_url with
    | none => exact h
    | some p =>
      by_cases hp : p = ""
      · simpa [hp] using h
      · simpa [bne_iff_ne, hp] using mergeEdge_count_le s.edges e (p, c.url) h

theorem runUpserts_count_mono (now : Nat) (e : String × String) :
    ∀ (calls : List Neo4j.UpsertCall) (s : Neo4j.NState),
      Neo4j.edgeCount s.edges e
        ≤ Neo4j.edgeCount (Neo4j.runUpserts now s calls).edges e := by
  intro calls
  induction calls with
  | nil => intro s; exact Nat.le_refl _
  | cons c cs ih =>
    intro s
    rw [Neo4j.runUpserts]
    refine Nat.le_trans ?_ (ih _)
    rw [Neo4j.add_or_update_link, create_or_update_link_edges]
    cases hcp : c.parent_url with
    | none => exact Nat.le_refl _
    | some p =>
      by_cases hp : p = ""
      · simp [hp]
      · simpa [bne_iff_ne, hp] using mergeEdge_count_mono s.edges e (p, c.url)

theorem runUpserts_count_pos_of_hit (now : Nat) (p u : String)
    (hp : p ≠ "") :
    ∀ (calls : List Neo4j.UpsertCall) (s : Neo4j.NState),
      (∃ c ∈ calls, c.url = u ∧ c.parent_url = some p) →
      1 ≤ Neo4j.edgeCount (Neo4j.runUpserts now s calls).edges (p, u) := by
  intro calls
  induction calls with
  | nil => intro s h; simp at h
  | cons c cs ih =>
    intro s h
    rw [Neo4j.runUpserts]
    rcases h with ⟨c', hc', hurl, hpar⟩
    rcases List.mem_cons.mp hc' with hc0 | hc1
    · subst hc0
      refine Nat.le_trans ?_ (runUpserts_count_mono now (p, u) cs _)
      rw [Neo4j.add_or_update_link, create_or_update_link_edges, hpar, hurl]
      simpa [bne_iff_ne, hp] using mergeEdge_count_ge_one s.edges (p, u)
    · exact ih _ ⟨c', hc1, hurl, hpar⟩

/-- Claim C2 (corrected): in the Neo4j manager the discovery edge is
idempotent — after any sequence of `add_or_update_link` calls starting
from an empty store, at most one `LINKS_TO` edge exists for an ordered
pair `(p, u)`, and exactly one as soon as some call passed that pair —
whereas the Mongo manager (see the counterexample) inserts a fresh edge
document on every repeated call. -/
theorem claimC2_neo4j_edge_idempotent (calls : List Neo4j.UpsertCall)
    (now : Nat) (p u : String) (hp : p ≠ "") :
    Neo4j.edgeCount (Neo4j.runUpserts now Neo4j.emptyN calls).edges (p, u) ≤ 1
    ∧ ((∃ c ∈ calls, c.url = u ∧ c.parent_url = some p) →
        Neo4j.edgeCount (Neo4j.runUpserts now Neo4j.emptyN calls).edges (p, u)
          = 1) := by
  constructor
  · exact runUpserts_count_le now (p, u) calls Neo4j.emptyN
      (by simp [Neo4j.edgeCount, Neo4j.emptyN])
  · intro h
    have h1 := runUpserts_count_pos_of_hit now p u hp calls Neo4j.emptyN h
    have h2 := runUpserts_count_le now (p, u) calls Neo4j.emptyN
      (by simp [Neo4j.edgeCount, Neo4j.emptyN])
    omega

/-- Claim C2, witness: two identical upserts of `http://a.com/x` under
parent `http://a.com/` leave exactly one Neo4j edge for the pair. -/
theorem claimC2_neo4j_edge_idempotent_witness :
    ("http://a.com/" : String) ≠ ""
    ∧ (Neo4j.edgeCount
         (Neo4j.runUpserts 0 Neo4j.emptyN
           [Fixtures.call2, Fixtures.call2]).edges
         ("http://a.com/", "http://a.com/x") ≤ 1
       ∧ ((∃ c ∈ [Fixtures.call2, Fixtures.call2],
             c.url = "http://a.com/x" ∧ c.parent_url = some "http://a.com/") →
           Neo4j.edgeCount
             (Neo4j.runUpserts 0 Neo4j.emptyN
               [Fixtures.call2, Fixtures.call2]).edges
             ("http://a.com/", "http://a.com/x") = 1)) :=
  ⟨by decide,
   claimC2_neo4j_edge_idempotent [Fixtures.call2, Fixtures.call2] 0
     "http://a.com/" "http://a.com/x" (by decide)⟩

/-! ## Lemmas about the politeness gate -/

theorem ensure_policy_of_cached (st : Robots.ScraperState)
    (fetch : String → Robots.RFetch) (now : Nat) (d : String)
    (rules : List Robots.RuleLine)
    (h : lookupAssoc st.robot_parsers d = some rules) :
    Robots.ensure_policy st fetch now d = some st := by
  unfold Robots.ensure_policy
  rw [h]

theorem rulesFor_of_cached (st : Robots.ScraperState) (d : String)
    (rules : List Robots.RuleLine)
    (h : lookupAssoc st.robot_parsers d = some rules) :
    Robots.rulesFor st d = rules := by
  unfold Robots.rulesFor
  rw [h]

theorem add_unallowed_link_fs (st : Robots.ScraperState) (url : String) :
    (Robots.add_unallowed_link st url).fs = st.fs := by
  unfold Robots.add_unallowed_link
  split <;> rfl

theorem add_unallowed_link_parsers (st : Robots.ScraperState) (url : String) :
    (Robots.add_unallowed_link st url).robot_parsers = st.robot_parsers := by
  unfold Robots.add_unallowed_link
  split <;> rfl

/-- On an in-memory parser-cache hit, `is_allowed` is exactly: evaluate
the cached rules, record the URL on denial; no exception can arise. -/
theorem is_allowed_cached (st : Robots.ScraperState)
    (fetch : String → Robots.RFetch) (now : Nat) (agent url : String)
    (rules : List Robots.RuleLine)
    (h : lookupAssoc st.robot_parsers (netloc url) = some rules) :
    Robots.is_allowed st fetch now agent url
      = some (if Robots.can_fetch rules agent url then (true, st)
              else (false, Robots.add_unallowed_link st url)) := by
  unfold Robots.is_allowed
  rw [ensure_policy_of_cached st fetch now _ rules h]
  simp only [rulesFor_of_cached st (netloc url) rules h]
  split <;> rfl

/-- When the fetch outcome is one the `except` clause handles,
`update_robot_file` returns normally with the corresponding file lines
written at mtime `now`. -/
theorem update_robot_file_eq (st : Robots.ScraperState)
    (fetch : String → Robots.RFetch) (now : Nat) (d : String)
    (L : List String) (hL : Robots.fetchedLines (fetch d) = some L) :
    Robots.update_robot_file st fetch now d
      = some { st with fs := setAssoc st.fs d (L, now) } := by
  cases hf : fetch d with
  | ok c =>
    rw [hf] at hL
    simp only [Robots.fetchedLines, Option.some.injEq] at hL
    subst hL
    simp [Robots.update_robot_file, hf]
  | clientError =>
    rw [hf] at hL
    simp only [Robots.fetchedLines, Option.some.injEq] at hL
    subst hL
    simp [Robots.update_robot_file, hf]
  | timeoutError =>
    rw [hf] at hL
    simp [Robots.fetchedLines] at hL

/-- A timeout escapes the `except` clause: `update_robot_file` writes no
file and the exception propagates. -/
theorem update_robot_file_timeout (st : Robots.ScraperState)
    (fetch : String → Robots.RFetch) (now : Nat) (d : String)
    (h : fetch d = .timeoutError) :
    Robots.update_robot_file st fetch now d = none := by
  unfold Robots.update_robot_file
  rw [h]

theorem refresh_of_absent (st : Robots.ScraperState)
    (fetch : String → Robots.RFetch) (now : Nat) (d : String)
    (h : lookupAssoc st.fs d = none) :
    Robots.refresh_file_if_stale st fetch now d
      = Robots.update_robot_file st fetch now d := by
  unfold Robots.refresh_file_if_stale
  rw [h]

theorem refresh_of_stale (st : Robots.ScraperState)
    (fetch : String → Robots.RFetch) (now : Nat) (d : String)
    (fm : List String × Nat) (h : lookupAssoc st.fs d = some fm)
    (ho : Robots.is_file_outdated now fm.2 = true) :
    Robots.refresh_file_if_stale st fetch now d
      = Robots.update_robot_file st fetch now d := by
  unfold Robots.refresh_file_if_stale
  rw [h]
  simp [ho]

/-- When the robots file is refetched and the fetch outcome is handled,
`load_robot_policy` writes the fetched lines (empty for a caught
`ClientError`) with mtime `now` and installs their parse as the domain's
parser. -/
theorem load_robot_policy_after_refetch (st : Robots.ScraperState)
    (fetch : String → Robots.RFetch) (now : Nat) (d : String)
    (L : List String)
    (hrefetch : Robots.refresh_file_if_stale st fetch now d
        = Robots.update_robot_file st fetch now d)
    (hL : Robots.fetchedLines (fetch d) = some L) :
    Robots.load_robot_policy st fetch now d
      = some { st with fs := setAssoc st.fs d (L, now),
                       robot_parsers := (setAssoc st.robot_parsers d
                         (Robots.parseRobots L)) } := by
  unfold Robots.load_robot_policy
  rw [hrefetch, update_robot_file_eq st fetch now d L hL]
  unfold Robots.install_policy Robots.read_robot_file
  simp [lookupAssoc_setAssoc_self]

/-- When the robots file is refetched and the fetch times out, the
exception propagates out of `load_robot_policy`. -/
theorem load_robot_policy_timeout (st : Robots.ScraperState)
    (fetch : String → Robots.RFetch) (now : Nat) (d : String)
    (hrefetch : Robots.refresh_file_if_stale st fetch now d
        = Robots.update_robot_file st fetch now d)
    (h : fetch d = .timeoutError) :
    Robots.load_robot_policy st fetch now d = none := by
  unfold Robots.load_robot_policy
  rw [hrefetch, update_robot_file_timeout st fetch now d h]
  rfl

/-- On a parser-cache miss that refetches the robots file with a handled
outcome, `is_allowed` caches the fetched file at mtime `now`, installs its
parsed rules, and evaluates exactly those rules. -/
theorem is_allowed_after_load (st : Robots.ScraperState)
    (fetch : String → Robots.RFetch) (now : Nat) (agent url : String)
    (L : List String)
    (hmiss : lookupAssoc st.robot_parsers (netloc url) = none)
    (hrefetch : Robots.refresh_file_if_stale st fetch now (netloc url)
        = Robots.update_robot_file st fetch now (netloc url))
    (hL : Robots.fetchedLines (fetch (netloc url)) = some L) :
    Robots.is_allowed st fetch now agent url
      = some (if Robots.can_fetch (Robots.parseRobots L) agent url then
                (true,
                 { st with fs := setAssoc st.fs (netloc url) (L, now),
                           robot_parsers := (setAssoc st.robot_parsers
                             (netloc url) (Robots.parseRobots L)) })
              else
                (false,
                 Robots.add_unallowed_link
                   { st with fs := setAssoc st.fs (netloc url) (L, now),
                             robot_parsers := (setAssoc st.robot_parsers
                               (netloc url) (Robots.parseRobots L)) }
                   url)) := by
  have hens : Robots.ensure_policy st fetch now (netloc url)
      = some { st with fs := setAssoc st.fs (netloc url) (L, now),
                       robot_parsers := (setAssoc st.robot_parsers (netloc url)
                         (Robots.parseRobots L)) } := by
    unfold Robots.ensure_policy
    rw [hmiss,
      load_robot_policy_after_refetch st fetch now (netloc url) L hrefetch hL]
  unfold Robots.is_allowed
  rw [hens]
  have hrules : Robots.rulesFor
      { st with fs := setAssoc st.fs (netloc url) (L, now),
                robot_parsers := (setAssoc st.robot_parsers (netloc url)
                  (Robots.parseRobots L)) }
      (netloc url) = Robots.parseRobots L := by
    unfold Robots.rulesFor
    rw [lookupAssoc_setAssoc_self]
  simp only [hrules]
  split <;> rfl

/-- On a parser-cache miss that refetches the robots file and times out,
the exception propagates out of `is_allowed`. -/
theorem is_allowed_timeout (st : Robots.ScraperState)
    (fetch : String → Robots.RFetch) (now : Nat) (agent url : String)
    (hmiss : lookupAssoc st.robot_parsers (netloc url) = none)
    (hrefetch : Robots.refresh_file_if_stale st fetch now (netloc url)
        = Robots.update_robot_file st fetch now (netloc url))
    (h : fetch (netloc url) = .timeoutError) :
    Robots.is_allowed st fetch now agent url = none := by
  unfold Robots.is_allowed
  rw [show Robots.ensure_policy st fetch now (netloc url) = none by
    unfold Robots.ensure_policy
    rw [hmiss,
      load_robot_policy_timeout st fetch now (netloc url) hrefetch h]]

/-- Claim C4, counterexample: domain `h`'s cached robots file is from time
0 and stale at `now = ttlSeconds + 1` (first conjunct), and a fresh fetch
would return an allow-all policy; yet `is_allowed` answers `false` from
the in-memory denying parser without touching the cache file (second and
third conjuncts), while the reload the claim prescribes would answer
`true` (last conjunct, evaluated from the same state with an empty
in-memory parser dict). -/
theorem claimC4_stale_policy_not_reloaded :
    Robots.is_file_outdated (Robots.ttlSeconds + 1) 0 = true
    ∧ (Robots.is_allowed Fixtures.st4 Fixtures.fetchEmptyOk
        (Robots.ttlSeconds + 1) "A" "http://h/page").map Prod.fst
      = some false
    ∧ (Robots.is_allowed Fixtures.st4 Fixtures.fetchEmptyOk
        (Robots.ttlSeconds + 1) "A" "http://h/page").map (fun r => r.2.fs)
      = some Fixtures.st4.fs
    ∧ (Robots.is_allowed { Fixtures.st4 with robot_parsers := [] }
        Fixtures.fetchEmptyOk (Robots.ttlSeconds + 1) "A"
        "http://h/page").map Prod.fst = some true := by
  decide

/-- Claim C4 (corrected): the policy's staleness is checked only on the
first `is_allowed` for a domain in this process, not on every call.
(a) On an in-memory `robot_parsers` hit, the cached rules are evaluated
directly — no TTL check, no reload, no change to the cache file or the
parser dict, however stale the policy is. (b) On a miss with no cached
file, and (c) on a miss with a cached file older than the TTL, the file is
refetched before the rules are evaluated (when the refetch outcome is one
the code handles, i.e. not an escaped timeout). -/
theorem claimC4_ttl_checked_only_on_cache_miss (st : Robots.ScraperState)
    (fetch : String → Robots.RFetch) (now : Nat) (agent url : String) :
    (∀ rules, lookupAssoc st.robot_parsers (netloc url) = some rules →
      Robots.is_allowed st fetch now agent url
          = some (if Robots.can_fetch rules agent url then (true, st)
                  else (false, Robots.add_unallowed_link st url))
      ∧ (Robots.is_allowed st fetch now agent url).map (fun r => r.2.fs)
          = some st.fs
      ∧ (Robots.is_allowed st fetch now agent url).map
          (fun r => r.2.robot_parsers) = some st.robot_parsers)
    ∧ (∀ L, lookupAssoc st.robot_parsers (netloc url) = none →
        lookupAssoc st.fs (netloc url) = none →
        Robots.fetchedLines (fetch (netloc url)) = some L →
        (Robots.is_allowed st fetch now agent url).map
            (fun r => lookupAssoc r.2.fs (netloc url)) = some (some (L, now))
        ∧ (Robots.is_allowed st fetch now agent url).map Prod.fst
            = some (Robots.can_fetch (Robots.parseRobots L) agent url))
    ∧ (∀ L fm, lookupAssoc st.robot_parsers (netloc url) = none →
        lookupAssoc st.fs (netloc url) = some fm →
        Robots.is_file_outdated now fm.2 = true →
        Robots.fetchedLines (fetch (netloc url)) = some L →
        (Robots.is_allowed st fetch now agent url).map
            (fun r => lookupAssoc r.2.fs (netloc url)) = some (some (L, now))
        ∧ (Robots.is_allowed st fetch now agent url).map Prod.fst
            = some (Robots.can_fetch (Robots.parseRobots L) agent url)) := by
  refine ⟨?_, ?_, ?_⟩
  · intro rules h
    rw [is_allowed_cached st fetch now agent url rules h]
    cases hcf : Robots.can_fetch rules agent url with
    | true => simp [hcf]
    | false => simp [hcf, add_unallowed_link_fs, add_unallowed_link_parsers]
  · intro L hmiss hfs hL
    rw [is_allowed_after_load st fetch now agent url L hmiss
      (refresh_of_absent st fetch now (netloc url) hfs) hL]
    cases hcf : Robots.can_fetch (Robots.parseRobots L) agent url with
    | true => simp [hcf, lookupAssoc_setAssoc_self]
    | false => simp [hcf, add_unallowed_link_fs, lookupAssoc_setAssoc_self]
  · intro L fm hmiss hfs ho hL
    rw [is_allowed_after_load st fetch now agent url L hmiss
      (refresh_of_stale st fetch now (netloc url) fm hfs ho) hL]
    cases hcf : Robots.can_fetch (Robots.parseRobots L) agent url with
    | true => simp [hcf, lookupAssoc_setAssoc_self]
    | false => simp [hcf, add_unallowed_link_fs, lookupAssoc_setAssoc_self]

/-- Claim C4, witness: the cache-hit clause applied to the concrete state
of the counterexample. -/
theorem claimC4_ttl_checked_only_on_cache_miss_witness :
    lookupAssoc Fixtures.st4.robot_parsers (netloc "http://h/page")
        = some Fixtures.denyAll
    ∧ (Robots.is_allowed Fixtures.st4 Fixtures.fetchEmptyOk
          (Robots.ttlSeconds + 1) "A" "http://h/page"
        = some (if Robots.can_fetch Fixtures.denyAll "A" "http://h/page" then
                  (true, Fixtures.st4)
                else
                  (false, Robots.add_unallowed_link Fixtures.st4
                    "http://h/page"))
      ∧ (Robots.is_allowed Fixtures.st4 Fixtures.fetchEmptyOk
          (Robots.ttlSeconds + 1) "A" "http://h/page").map (fun r => r.2.fs)
        = some Fixtures.st4.fs
      ∧ (Robots.is_allowed Fixtures.st4 Fixtures.fetchEmptyOk
          (Robots.ttlSeconds + 1) "A" "http://h/page").map
          (fun r => r.2.robot_parsers) = some Fixtures.st4.robot_parsers) :=
  ⟨by decide,
   (claimC4_ttl_checked_only_on_cache_miss Fixtures.st4 Fixtures.fetchEmptyOk
     (Robots.ttlSeconds + 1) "A" "http://h/page").1 Fixtures.denyAll
     (by decide)⟩

/-- Claim C5, counterexample: a robots fetch that fails with the asyncio
timeout — a failure that is **not** an `aiohttp.ClientError` — escapes the
`except` clause of `update_robot_file`: no cache file is written, and the
exception propagates out of `is_allowed` (result `none`), so for this
failing domain no empty cached policy file exists afterward and no `true`
is returned, contrary to the claim's universal fail-open promise. -/
theorem claimC5_timeout_failure_propagates :
    Robots.update_robot_file (Robots.ScraperState.mk [] [] [] none)
        Fixtures.fetchTimeout 5 "badhost.test" = none
    ∧ Robots.is_allowed (Robots.ScraperState.mk [] [] [] none)
        Fixtures.fetchTimeout 5 "A" "http://badhost.test/page" = none := by
  decide

/-- Claim C5 (corrected): the fail-open behaviour holds exactly for the
fetch failures the source catches. For a domain with no cached robots
file and no in-memory parser: (1) when the robots fetch fails with an
`aiohttp.ClientError` (network error, non-2xx status), `is_allowed` does
not propagate the failure — it caches an **empty** robots file for the
domain at mtime `now`, installs the empty (allow-all) policy, the call
returns `true`, and every subsequent `is_allowed` on any URL of that
domain returns `true`; (2) when the fetch fails with the asyncio timeout
instead, the exception escapes the `except aiohttp.ClientError` clause and
propagates out of `is_allowed`, with no cache file written. -/
theorem claimC5_robots_failure_fail_open (st : Robots.ScraperState)
    (fetch : String → Robots.RFetch) (now : Nat) (agent url d : String)
    (hd : netloc url = d)
    (hpar : lookupAssoc st.robot_parsers d = none)
    (hfs : lookupAssoc st.fs d = none) :
    (fetch d = Robots.RFetch.clientError →
      Robots.is_allowed st fetch now agent url
        = some (true,
            { st with fs := setAssoc st.fs d ([], now),
                      robot_parsers := (setAssoc st.robot_parsers d
                        (Robots.parseRobots [])) })
      ∧ lookupAssoc
          (setAssoc st.fs d (([] : List String), now)) d = some ([], now)
      ∧ ∀ (url2 : String) (now2 : Nat), netloc url2 = d →
          Robots.is_allowed
            { st with fs := setAssoc st.fs d ([], now),
                      robot_parsers := (setAssoc st.robot_parsers d
                        (Robots.parseRobots [])) }
            fetch now2 agent url2
          = some (true,
              { st with fs := setAssoc st.fs d ([], now),
                        robot_parsers := (setAssoc st.robot_parsers d
                          (Robots.parseRobots [])) }))
    ∧ (fetch d = Robots.RFetch.timeoutError →
        Robots.is_allowed st fetch now agent url = none
        ∧ Robots.update_robot_file st fetch now d = none) := by
  subst hd
  constructor
  · intro hfail
    have hL : Robots.fetchedLines (fetch (netloc url)) = some [] := by
      rw [hfail]
      rfl
    have h := is_allowed_after_load st fetch now agent url [] hpar
      (refresh_of_absent st fetch now (netloc url) hfs) hL
    have hcf : Robots.can_fetch (Robots.parseRobots []) agent url = true := rfl
    rw [hcf] at h
    simp only [eq_self_iff_true, if_true] at h
    refine ⟨h, lookupAssoc_setAssoc_self _ _ _, ?_⟩
    intro url2 now2 hd2
    have hcached : lookupAssoc
        ({ st with fs := setAssoc st.fs (netloc url) ([], now),
                   robot_parsers := (setAssoc st.robot_parsers (netloc url)
                     (Robots.parseRobots [])) } :
          Robots.ScraperState).robot_parsers (netloc url2)
        = some (Robots.parseRobots []) := by
      rw [hd2]
      exact lookupAssoc_setAssoc_self _ _ _
    rw [is_allowed_cached _ fetch now2 agent url2 _ hcached]
    rfl
  · intro hfail
    exact ⟨is_allowed_timeout st fetch now agent url hpar
        (refresh_of_absent st fetch now (netloc url) hfs) hfail,
      update_robot_file_timeout st fetch now (netloc url) hfail⟩

/-- Claim C5, witness: a `ClientError`-failing robots fetch for
`badhost.test` from a fresh state — the call allows the URL, the empty
cache file exists, later calls on the domain stay allowed. -/
theorem claimC5_robots_failure_fail_open_witness :
    (netloc "http://badhost.test/page" = "badhost.test"
      ∧ lookupAssoc (Robots.ScraperState.mk [] [] [] none).robot_parsers
          "badhost.test" = none
      ∧ lookupAssoc (Robots.ScraperState.mk [] [] [] none).fs
          "badhost.test" = none
      ∧ Fixtures.fetchFail "badhost.test" = Robots.RFetch.clientError)
    ∧ (Robots.is_allowed (Robots.ScraperState.mk [] [] [] none)
          Fixtures.fetchFail 5 "A" "http://badhost.test/page"
        = some (true,
            Robots.ScraperState.mk [("badhost.test", ([], 5))]
              [("badhost.test", [])] [] none)
      ∧ lookupAssoc [("badhost.test", (([] : List String), 5))]
          "badhost.test" = some ([], 5)
      ∧ ∀ (url2 : String) (now2 : Nat), netloc url2 = "badhost.test" →
          Robots.is_allowed
            (Robots.ScraperState.mk [("badhost.test", ([], 5))]
              [("badhost.test", [])] [] none)
            Fixtures.fetchFail now2 "A" url2
          = some (true,
              Robots.ScraperState.mk [("badhost.test", ([], 5))]
                [("badhost.test", [])] [] none)) :=
  ⟨⟨by decide, by decide, by decide, by decide⟩,
   (claimC5_robots_failure_fail_open (Robots.ScraperState.mk [] [] [] none)
     Fixtures.fetchFail 5 "A" "http://badhost.test/page" "badhost.test"
     (by decide) (by decide) (by decide)).1 (by decide)⟩

theorem countU_append (l₁ l₂ : List String) (u : String) :
    countU (l₁ ++ l₂) u = countU l₁ u + countU l₂ u := by
  simp [countU]

theorem countU_eq_zero_of_any_false (l : List String) (u : String)
    (h : l.any (fun x => x == u) = false) : countU l u = 0 := by
  simp only [countU, List.length_eq_zero, List.filter_eq_nil_iff]
  rw [List.any_eq_false] at h
  exact h

theorem is_allowed_cached_denied (st : Robots.ScraperState)
    (fetch : String → Robots.RFetch) (now : Nat) (agent url : String)
    (rules : List Robots.RuleLine)
    (h : lookupAssoc st.robot_parsers (netloc url) = some rules)
    (hdeny : Robots.can_fetch rules agent url = false) :
    Robots.is_allowed st fetch now agent url
      = some (false, Robots.add_unallowed_link st url) := by
  rw [is_allowed_cached st fetch now agent url rules h, hdeny]
  rfl

theorem add_unallowed_link_of_mem (st : Robots.ScraperState) (url : String)
    (h : st.unallowed_links.any (fun x => x == url) = true) :
    Robots.add_unallowed_link st url = st := by
  unfold Robots.add_unallowed_link
  rw [h]
  rfl

theorem add_unallowed_link_of_new (st : Robots.ScraperState) (url : String)
    (h : st.unallowed_links.any (fun x => x == url) = false) :
    Robots.add_unallowed_link st url
      = { st with unallowed_links := st.unallowed_links ++ [url],
                  savedLedger := some (st.unallowed_links ++ [url]) } := by
  unfold Robots.add_unallowed_link
  rw [h]
  rfl

/-- A state whose cached parser denies the URL and whose ledger already
holds it is a fixed point of `is_allowed` iteration (and no exception can
occur: the parser is cached). -/
theorem iterIsAllowed_fixpoint (fetch : String → Robots.RFetch)
    (now : Nat) (agent url : String) (st1 : Robots.ScraperState)
    (rules : List Robots.RuleLine)
    (h : lookupAssoc st1.robot_parsers (netloc url) = some rules)
    (hdeny : Robots.can_fetch rules agent url = false)
    (hmem : st1.unallowed_links.any (fun x => x == url) = true) :
    ∀ n, Robots.iterIsAllowed fetch now agent url n st1 = some st1 := by
  intro n
  induction n with
  | zero => rfl
  | succ k ih =>
    rw [Robots.iterIsAllowed,
      is_allowed_cached_denied st1 fetch now agent url rules h hdeny]
    simpa [add_unallowed_link_of_mem st1 url hmem] using ih

/-- Claim C9 (confirmed): for a URL denied by its domain's cached robots
policy and not yet in the ledger, any number `n + 1 ≥ 1` of `is_allowed`
calls appends it to the ledger exactly once (on the first denial), never
re-adds it, persists the ledger holding it, and leaves exactly one entry
for the URL. -/
theorem claimC9_denial_ledger_single_entry (st : Robots.ScraperState)
    (fetch : String → Robots.RFetch) (now : Nat) (agent url : String)
    (rules : List Robots.RuleLine) (n : Nat)
    (hp : lookupAssoc st.robot_parsers (netloc url) = some rules)
    (hdeny : Robots.can_fetch rules agent url = false)
    (hnew : st.unallowed_links.any (fun x => x == url) = false) :
    Robots.iterIsAllowed fetch now agent url (n + 1) st
      = some { st with unallowed_links := st.unallowed_links ++ [url],
                       savedLedger := some (st.unallowed_links ++ [url]) }
    ∧ countU (st.unallowed_links ++ [url]) url = 1 := by
  have hstep : Robots.is_allowed st fetch now agent url
      = some (false,
          { st with unallowed_links := st.unallowed_links ++ [url],
                    savedLedger := some (st.unallowed_links ++ [url]) }) := by
    rw [is_allowed_cached_denied st fetch now agent url rules hp hdeny,
      add_unallowed_link_of_new st url hnew]
  have hfix := iterIsAllowed_fixpoint fetch now agent url
    { st with unallowed_links := st.unallowed_links ++ [url],
              savedLedger := some (st.unallowed_links ++ [url]) }
    rules hp hdeny (by simp) n
  constructor
  · rw [Robots.iterIsAllowed, hstep]
    simpa using hfix
  · rw [countU_append, countU_eq_zero_of_any_false _ url hnew]
    simp [countU]

/-- Claim C9, witness: two `is_allowed` calls on the disallowed
`http://h/page` leave exactly one ledger entry and persist it. -/
theorem claimC9_denial_ledger_single_entry_witness :
    lookupAssoc Fixtures.st9.robot_parsers (netloc "http://h/page")
        = some Fixtures.denyAll
    ∧ Robots.can_fetch Fixtures.denyAll "A" "http://h/page" = false
    ∧ Fixtures.st9.unallowed_links.any
        (fun x => x == "http://h/page") = false
    ∧ (Robots.iterIsAllowed Fixtures.fetchEmptyOk 5 "A" "http://h/page" 2
          Fixtures.st9
        = some { Fixtures.st9 with
                   unallowed_links :=
                     Fixtures.st9.unallowed_links ++ ["http://h/page"],
                   savedLedger :=
                     some (Fixtures.st9.unallowed_links ++ ["http://h/page"]) }
      ∧ countU (Fixtures.st9.unallowed_links ++ ["http://h/page"])
          "http://h/page" = 1) :=
  ⟨by decide, by decide, by decide,
   claimC9_denial_ledger_single_entry Fixtures.st9 Fixtures.fetchEmptyOk 5
     "A" "http://h/page" Fixtures.denyAll 1 (by decide) (by decide)
     (by decide)⟩

/-! ## The crawl orchestrator -/

/-- Claim C3, counterexample: the dequeued URL `http://h/a` has a store
record last checked at time 0; it is allowed, due for a crawl, and its
fetch succeeds with content whose hash `"HH"` already exists on another
node. The claim says the orchestrator updates that node's `lastChecked`
(to `now = 1000`); the code leaves the store byte-for-byte unchanged —
the crawl returns with the original store, whose record still carries
`lastChecked = 0`. -/
theorem claimC3_duplicate_content_no_update :
    Fixtures.fp3 "http://h/a" = some ⟨"HH", [], []⟩
    ∧ Neo4j.content_exists Fixtures.store3 "HH" = true
    ∧ Crawl.crawlLoop Fixtures.fp3 Fixtures.fr3 1000 "A" 100 5
        ["http://h/a"] [] Fixtures.store3 Fixtures.robots3
      = some ⟨[], Fixtures.store3, Fixtures.robots3⟩
    ∧ Neo4j.get_last_crawl_info Fixtures.store3 "http://h/a"
      = some ⟨some 0, none⟩ := by
  decide

/-- The duplicate-content iteration of the crawl loop is a frame: when the
dequeued URL passes the politeness and freshness gates, its fetch
succeeds, and the content hash already exists, the loop continues on the
remaining queue with the store, visited set and frontier untouched (only
the politeness state is threaded from the allow check). -/
theorem crawlLoop_duplicate_step (fp : String → Option Crawl.Page)
    (fr : String → Robots.RFetch) (now : Nat) (agent : String)
    (mp fuel : Nat) (url : String) (rest visited : List String)
    (store : Neo4j.NState) (robots r1 : Robots.ScraperState)
    (page : Crawl.Page)
    (hlen : visited.length < mp)
    (hv : visited.any (fun x => x == url) = false)
    (ha : Robots.is_allowed robots fr now agent url = some (true, r1))
    (hs : Crawl.should_crawl (Neo4j.get_last_crawl_info store url) now = true)
    (hf : fp url = some page)
    (hdup : Neo4j.content_exists store page.hashv = true) :
    Crawl.crawlLoop fp fr now agent mp (fuel + 1) (url :: rest) visited store
        robots
      = Crawl.crawlLoop fp fr now agent mp fuel rest visited store r1 := by
  simp only [Crawl.crawlLoop, if_pos hlen, hv, ha, hs, hf, hdup,
    Bool.false_eq_true, if_false, if_true]

/-- Claim C3 (corrected): when a dequeued URL passes the politeness and
freshness gates, its fetch succeeds, but the content hash already exists
in the store, the iteration performs **no** store update at all (in
particular `lastChecked` is not refreshed), extracts no links, adds no
edges, enqueues nothing and does not mark the URL visited: the loop
continues on the remaining queue with the store, visited set and frontier
untouched (only the politeness state may have changed, from the allow
check). -/
theorem claimC3_duplicate_content_frame (fp : String → Option Crawl.Page)
    (fr : String → Robots.RFetch) (now : Nat) (agent : String)
    (mp fuel : Nat) (url : String) (rest visited : List String)
    (store : Neo4j.NState) (robots r1 : Robots.ScraperState)
    (page : Crawl.Page)
    (hlen : visited.length < mp)
    (hv : visited.any (fun x => x == url) = false)
    (ha : Robots.is_allowed robots fr now agent url = some (true, r1))
    (hs : Crawl.should_crawl (Neo4j.get_last_crawl_info store url) now = true)
    (hf : fp url = some page)
    (hdup : Neo4j.content_exists store page.hashv = true) :
    Crawl.crawlLoop fp fr now agent mp (fuel + 1) (url :: rest) visited store
        robots
      = Crawl.crawlLoop fp fr now agent mp fuel rest visited store r1 :=
  crawlLoop_duplicate_step fp fr now agent mp fuel url rest visited store
    robots r1 page hlen hv ha hs hf hdup

/-- Claim C3, witness: the frame theorem applied to the counterexample's
concrete state. -/
theorem claimC3_duplicate_content_frame_witness :
    (([] : List String).length < 100
      ∧ ([] : List String).any (fun x => x == "http://h/a") = false
      ∧ Robots.is_allowed Fixtures.robots3 Fixtures.fr3 1000 "A"
          "http://h/a" = some (true, Fixtures.robots3)
      ∧ Crawl.should_crawl
          (Neo4j.get_last_crawl_info Fixtures.store3 "http://h/a") 1000 = true
      ∧ Fixtures.fp3 "http://h/a" = some ⟨"HH", [], []⟩
      ∧ Neo4j.content_exists Fixtures.store3 "HH" = true)
    ∧ Crawl.crawlLoop Fixtures.fp3 Fixtures.fr3 1000 "A" 100 (4 + 1)
        ["http://h/a"] [] Fixtures.store3 Fixtures.robots3
      = Crawl.crawlLoop Fixtures.fp3 Fixtures.fr3 1000 "A" 100 4 [] []
          Fixtures.store3 Fixtures.robots3 :=
  ⟨⟨by decide, by decide, by decide, by decide, by decide, by decide⟩,
   claimC3_duplicate_content_frame Fixtures.fp3 Fixtures.fr3 1000 "A" 100 4
     "http://h/a" [] [] Fixtures.store3 Fixtures.robots3 Fixtures.robots3
     ⟨"HH", [], []⟩ (by decide) (by decide) (by decide) (by decide)
     (by decide) (by decide)⟩

/-- Claim C8, counterexample: the start URL's fetch is attempted and
succeeds, but its content hash `"KK"` already exists in the store, so its
content is reused; the claim places such a completed cycle in `visited`,
yet `crawl` returns an empty visited set (and an untouched store). -/
theorem claimC8_reused_content_not_visited :
    Fixtures.fp8 "http://k/a" = some ⟨"KK", [], []⟩
    ∧ Neo4j.content_exists Fixtures.store8 "KK" = true
    ∧ Crawl.crawlLoop Fixtures.fp8 Fixtures.fr3 1000 "A" 100 5
        ["http://k/a"] [] Fixtures.store8 Fixtures.robots8
      = some ⟨[], Fixtures.store8, Fixtures.robots8⟩ := by
  decide

/-- Claim C8 (corrected): `crawl` returns the `visited` set, but `visited`
holds exactly the URLs whose cycle ended in a successful fetch of
**novel** content (node upserted, links extracted), never fetch-failed or
content-reused URLs. Two universal parts: (1) every member of the visited
set a returning crawl produces was visited before the loop started or had
a successful fetch — so fetch-failed URLs are never added; (2) any
iteration whose dequeued URL passes the gates, fetches successfully, but
hits an already-existing content hash leaves visited (with store and
frontier) untouched — so content-reused URLs are never added. -/
theorem claimC8_visited_requires_successful_fetch
    (fp : String → Option Crawl.Page) (fr : String → Robots.RFetch)
    (now : Nat) (agent : String) (mp : Nat) :
    (∀ (fuel : Nat) (queue visited : List String) (store : Neo4j.NState)
        (robots : Robots.ScraperState) (res : Crawl.CrawlResult) (u : String),
      Crawl.crawlLoop fp fr now agent mp fuel queue visited store robots
          = some res →
      u ∈ res.visited → u ∈ visited ∨ (fp u).isSome = true)
    ∧ (∀ (fuel : Nat) (url : String) (rest visited : List String)
        (store : Neo4j.NState) (robots r1 : Robots.ScraperState)
        (page : Crawl.Page),
      visited.length < mp →
      visited.any (fun x => x == url) = false →
      Robots.is_allowed robots fr now agent url = some (true, r1) →
      Crawl.should_crawl (Neo4j.get_last_crawl_info store url) now = true →
      fp url = some page →
      Neo4j.content_exists store page.hashv = true →
      Crawl.crawlLoop fp fr now agent mp (fuel + 1) (url :: rest) visited
          store robots
        = Crawl.crawlLoop fp fr now agent mp fuel rest visited store r1) := by
  constructor
  · intro fuel
    induction fuel with
    | zero =>
      intro queue visited store robots res u h hm
      simp only [Crawl.crawlLoop, Option.some.injEq] at h
      subst h
      exact Or.inl hm
    | succ fuel ih =>
      intro queue visited store robots res u h hm
      cases queue with
      | nil =>
        simp only [Crawl.crawlLoop, Option.some.injEq] at h
        subst h
        exact Or.inl hm
      | cons url rest =>
        simp only [Crawl.crawlLoop] at h
        by_cases hlen : visited.length < mp
        · rw [if_pos hlen] at h
          cases hv : visited.any (fun x => x == url) with
          | true =>
            rw [hv] at h
            simp only [if_true] at h
            exact ih _ _ _ _ _ _ h hm
          | false =>
            rw [hv] at h
            simp only [Bool.false_eq_true, if_false] at h
            cases hia : Robots.is_allowed robots fr now agent url with
            | none =>
              rw [hia] at h
              exact Option.noConfusion h
            | some pr =>
              obtain ⟨allowed, r1⟩ := pr
              rw [hia] at h
              cases allowed with
              | false =>
                simp only [Bool.false_eq_true, if_false] at h
                exact ih _ _ _ _ _ _ h hm
              | true =>
                simp only [if_true] at h
                cases hs : Crawl.should_crawl
                    (Neo4j.get_last_crawl_info store url) now with
                | false =>
                  rw [hs] at h
                  simp only [Bool.false_eq_true, if_false] at h
                  exact ih _ _ _ _ _ _ h hm
                | true =>
                  rw [hs] at h
                  simp only [if_true] at h
                  cases hfp : fp url with
                  | none =>
                    simp only [hfp] at h
                    exact ih _ _ _ _ _ _ h hm
                  | some page =>
                    simp only [hfp] at h
                    cases hdup : Neo4j.content_exists store page.hashv with
                    | true =>
                      rw [hdup] at h
                      simp only [if_true] at h
                      exact ih _ _ _ _ _ _ h hm
                    | false =>
                      rw [hdup] at h
                      simp only [Bool.false_eq_true, if_false] at h
                      cases hdl : Crawl.discover_links fr now agent r1 url
                          page with
                      | none =>
                        simp only [hdl] at h
                        exact Option.noConfusion h
                      | some dlr =>
                        obtain ⟨lists, r2⟩ := dlr
                        simp only [hdl] at h
                        rcases ih _ _ _ _ _ _ h hm with hv1 | hsome
                        · rcases List.mem_append.mp hv1 with hv2 | hv3
                          · exact Or.inl hv2
                          · have hu : u = url := by simpa using hv3
                            subst hu
                            exact Or.inr (by rw [hfp]; rfl)
                        · exact Or.inr hsome
        · rw [if_neg hlen] at h
          simp only [Option.some.injEq] at h
          subst h
          exact Or.inl hm
  · intro fuel url rest visited store robots r1 page hlen hv ha hs hf hdup
    exact crawlLoop_duplicate_step fp fr now agent mp fuel url rest visited
      store robots r1 page hlen hv ha hs hf hdup

/-- Claim C8, witness: a crawl whose single URL is fetched successfully
with novel content returns with it in `visited`, and the theorem's first
part yields that its fetch succeeded. -/
theorem claimC8_visited_requires_successful_fetch_witness :
    (Crawl.crawlLoop Fixtures.fp8w Fixtures.fr3 1000 "A" 100 2
        ["http://m/a"] [] Neo4j.emptyN Fixtures.robots8w
      = some Fixtures.res8w
     ∧ "http://m/a" ∈ Fixtures.res8w.visited)
    ∧ ("http://m/a" ∈ ([] : List String)
        ∨ (Fixtures.fp8w "http://m/a").isSome = true) :=
  ⟨⟨by decide, by decide⟩,
   (claimC8_visited_requires_successful_fetch Fixtures.fp8w Fixtures.fr3
     1000 "A" 100).1 2 ["http://m/a"] [] Neo4j.emptyN Fixtures.robots8w
     Fixtures.res8w "http://m/a" (by decide) (by decide)⟩

end WebCrawler
